import Mathlib

/-!
# FishMiner game-state simulation engine: a shallow embedding

This file embeds the game-state simulation core of the FishMiner repository
(`src/hooks/useGameState.js` together with the termination effects of
`src/components/Game.jsx`) as an event-driven state machine, and proves or
refutes the specified properties of that core.

Modelling conventions:
* React `useState` fields become fields of the `GState` record.
* Each periodic timer callback (spawn / fall / sweep / countdown), each
  one-shot delayed callback (`setTimeout` in `dropHook`), each `useEffect`
  body (the localStorage writer, the feedback-clearing timer, the two
  termination checks) and each exposed request (`startGame`, `dropHook`)
  becomes one event of the `Ev` type; the host's single-threaded event queue
  is modelled by running an arbitrary list of events (`run`).
* The `setTimeout` scheduled inside `dropHook` closes over `hookPosition` and
  `gameObjects`; this closure is modelled by the `Pending` record pushed onto
  `pendingCatch` at request time and consumed by the `Ev.resolve` event.
  Likewise `pendingLifts` models the pending inner 500ms `setTimeout`.
* Randomness (`Math.random`, `Date.now`) is an external input: the spawn
  event carries the random draws, the resolve event carries the clock value.
* `localStorage` is modelled by the `storage` field
  (`none` = key `fishMinerGameState` absent).
* `removedSum` is a ghost field (not present in the source): it accumulates
  the point values of the items actually removed from the live collection by
  catch resolutions, and is reset by `startGame`; it exists only to state the
  score-accounting property.
-/

namespace FishMiner

/-- Item categories, from `useGameState.js` (`'fish' | 'garbage' | 'mystery'`). -/
inductive ItemType where
  | fish
  | garbage
  | mystery
deriving DecidableEq, Repr

/-- A falling item: `{ id, type, points, position: { x, y } }`. -/
structure Obj where
  id : Nat
  type : ItemType
  points : Int
  x : Int
  y : Int
deriving DecidableEq, Repr

/-- The `lastCaughtItem` snapshot: `{ ...caughtObject, catchTime: Date.now() }`. -/
structure Caught where
  item : Obj
  catchTime : Nat
deriving DecidableEq, Repr

/-- The closure captured by the `setTimeout` scheduled in `dropHook`:
the values of `hookPosition` and `gameObjects` at request time. -/
structure Pending where
  hookX : Int
  objs : List Obj
deriving DecidableEq, Repr

/-- The catch-animation phase (`catchAnimation` is `null`, `'dropping'` or
`'lifting'`; `null` is modelled as `none`). -/
inductive Phase where
  | dropping
  | lifting
deriving DecidableEq, Repr

/-- The whole mutable state of one `useGameState` instance, plus the scheduled
one-shot callbacks (`pendingCatch`, `pendingLifts`), the localStorage cell
(`storage`) and the ghost accumulator `removedSum`. -/
structure GState where
  score : Int
  timeLeft : Nat
  isGameActive : Bool
  gameObjects : List Obj
  hookPosition : Int
  hookDirection : Int
  catchAnimation : Option Phase
  lastCaughtItem : Option Caught
  pendingCatch : List Pending
  pendingLifts : Nat
  storage : Option (Int × Nat)
  removedSum : Int
deriving DecidableEq, Repr

/-- `MIN_POSITION` from `useGameState.js`. -/
def MIN_POSITION : Int := 20

/-- `MAX_POSITION` from `useGameState.js`. -/
def MAX_POSITION : Int := 460

/-- `TARGET_SCORE` from `Game.jsx`. -/
def TARGET_SCORE : Int := 500

/-- `GAME_DURATION` from `Game.jsx`. -/
def GAME_DURATION : Nat := 60

/-- The unused `INITIAL_OBJECTS` constant of `useGameState.js` (dead code in
the source: `gameObjects` starts as `[]` and `startGame` sets `[]`). -/
def INITIAL_OBJECTS : List Obj :=
  [ { id := 1, type := .fish, points := 50, x := 100, y := 0 },
    { id := 2, type := .fish, points := 30, x := 300, y := 0 },
    { id := 3, type := .garbage, points := -20, x := 200, y := 0 },
    { id := 4, type := .mystery, points := 0, x := 400, y := 0 } ]

/-- The initial `useState` values of `useGameState(gameDuration)`. -/
def initState (gameDuration : Nat) : GState :=
  { score := 0
    timeLeft := gameDuration
    isGameActive := false
    gameObjects := []
    hookPosition := 250
    hookDirection := 1
    catchAnimation := none
    lastCaughtItem := none
    pendingCatch := []
    pendingLifts := 0
    storage := none
    removedSum := 0 }

/-- `startGame`: resets every state field and removes the localStorage key.
Note the source has no guard on `isGameActive`, and does not cancel the
pending `setTimeout` callbacks. -/
def startGame (gameDuration : Nat) (s : GState) : GState :=
  { s with
    score := 0
    timeLeft := gameDuration
    isGameActive := true
    gameObjects := []
    hookPosition := 250
    hookDirection := 1
    catchAnimation := none
    lastCaughtItem := none
    storage := none
    removedSum := 0 }

/-- `endGame`: sets `isGameActive` to `false`. -/
def endGame (s : GState) : GState :=
  { s with isGameActive := false }

/-- `updateScore`: adds `points` to the score (exposed by the hook; within the
application it is invoked only from the catch resolution in `dropHook`). -/
def updateScore (points : Int) (s : GState) : GState :=
  { s with score := s.score + points }

/-- One freshly spawned item, from the spawn interval body of
`useGameState.js` (lines 59-73). The random draws are inputs: `pick` selects
the type (`Math.floor(Math.random() * 3)` becomes `pick % 3`), `rx` the
horizontal position (`40 + Math.random() * 420` becomes `40 + rx % 420`) and
`rp` the point roll for the chosen type. -/
def spawnItem (id pick rx rp : Nat) : Obj :=
  let t : ItemType :=
    if pick % 3 = 0 then .fish else if pick % 3 = 1 then .garbage else .mystery
  { id := id
    type := t
    points :=
      match t with
      | .fish => 20 + Int.ofNat (rp % 40)
      | .garbage => -30 - Int.ofNat (rp % 20)
      | .mystery => Int.ofNat (rp % 101) - 50
    x := 40 + Int.ofNat (rx % 420)
    y := 0 }

/-- One spawn tick: the interval exists only while `isGameActive`, and appends
exactly one new item to `gameObjects`. -/
def spawnTick (id pick rx rp : Nat) (s : GState) : GState :=
  if s.isGameActive = true then
    { s with gameObjects := s.gameObjects ++ [spawnItem id pick rx rp] }
  else s

/-- The per-item update of a fall tick: `y := y + 5`. -/
def fallObj (o : Obj) : Obj :=
  { o with y := o.y + 5 }

/-- One fall tick (the 50ms interval): move every item down by 5, then filter
out the items with `y >= 480`, as a single `setGameObjects` update. -/
def fallTick (s : GState) : GState :=
  if s.isGameActive = true then
    { s with gameObjects :=
        (s.gameObjects.map fallObj).filter (fun o => decide (o.y < 480)) }
  else s

/-- One hook-sweep tick (the 16ms interval): advance by `hookDirection * 3`,
clamping and flipping direction at the bounds, exactly as in lines 104-117 of
`useGameState.js` (the local `newPosition` of the source is inlined as
`s.hookPosition + s.hookDirection * 3`). -/
def sweepTick (s : GState) : GState :=
  if s.isGameActive = true then
    if MAX_POSITION ≤ s.hookPosition + s.hookDirection * 3 ∧ 0 < s.hookDirection then
      { s with hookPosition := MAX_POSITION, hookDirection := -1 }
    else if s.hookPosition + s.hookDirection * 3 ≤ MIN_POSITION ∧ s.hookDirection < 0 then
      { s with hookPosition := MIN_POSITION, hookDirection := 1 }
    else
      { s with hookPosition := s.hookPosition + s.hookDirection * 3 }
  else s

/-- One countdown tick: the interval exists only while `isGameActive` and
`timeLeft > 0`, and decrements `timeLeft` by one. -/
def countdownTick (s : GState) : GState :=
  if s.isGameActive = true ∧ 0 < s.timeLeft then
    { s with timeLeft := s.timeLeft - 1 }
  else s

/-- The proximity test of the catch resolution:
`Math.abs(objX - hookX) < 40 && Math.abs(objY - 350) < 100`. -/
def qualifies (hookX : Int) (o : Obj) : Bool :=
  (o.x - hookX).natAbs < 40 && (o.y - 350).natAbs < 100

/-- `dropHook`, the synchronous part: ignored unless the session is active and
`catchAnimation` is `null`; otherwise set the phase to `dropping` and schedule
the delayed resolution, whose closure captures the current `hookPosition` and
`gameObjects`. -/
def dropHook (s : GState) : GState :=
  if s.isGameActive = true ∧ s.catchAnimation = none then
    { s with
      catchAnimation := some Phase.dropping
      pendingCatch := s.pendingCatch ++ [⟨s.hookPosition, s.gameObjects⟩] }
  else s

/-- The body of the `setTimeout` scheduled by `dropHook` (lines 131-168):
find the first qualifying item among the captured `gameObjects` against the
captured `hookPosition`; on a catch, record the snapshot, add the points,
filter the caught id out of the current collection and enter the `lifting`
phase (scheduling its end); otherwise just reset the phase. The source has no
session or generation guard. `removedSum` is the ghost accumulator of the
points of the items actually removed from the current collection. -/
def resolveBody (p : Pending) (t : Nat) (s : GState) : GState :=
  match p.objs.find? (qualifies p.hookX) with
  | some caughtObject =>
      { s with
        lastCaughtItem := some ⟨caughtObject, t⟩
        score := s.score + caughtObject.points
        removedSum := s.removedSum +
          ((s.gameObjects.filter (fun o => o.id == caughtObject.id)).map
            (fun o => o.points)).sum
        gameObjects := s.gameObjects.filter (fun o => o.id != caughtObject.id)
        catchAnimation := some Phase.lifting
        pendingLifts := s.pendingLifts + 1 }
  | none => { s with catchAnimation := none }

/-- Firing the oldest pending delayed catch resolution (`t` is `Date.now()`
at firing time). If no callback is pending the event cannot occur, modelled
as the identity. -/
def resolveCatch (t : Nat) (s : GState) : GState :=
  match s.pendingCatch with
  | [] => s
  | p :: rest => resolveBody p t { s with pendingCatch := rest }

/-- Firing the inner 500ms `setTimeout` of a successful catch: reset
`catchAnimation` to `null`. -/
def liftEnd (s : GState) : GState :=
  if 0 < s.pendingLifts then
    { s with catchAnimation := none, pendingLifts := s.pendingLifts - 1 }
  else s

/-- The feedback-clearing effect (lines 173-181): after 1500ms the
`lastCaughtItem` snapshot is cleared (the timer exists only while a snapshot
is present, and is self-cancelling on change). -/
def clearCaught (s : GState) : GState :=
  match s.lastCaughtItem with
  | some _ => { s with lastCaughtItem := none }
  | none => s

/-- The time-up termination effect: the hook's own countdown effect calls
`endGame()` when `timeLeft === 0` (lines 190-192 of `useGameState.js`), and
`Game.jsx` lines 48-52 do the same guarded by `isGameActive`. -/
def checkTimeUp (s : GState) : GState :=
  if s.timeLeft = 0 then endGame s else s

/-- The target-score termination effect of `Game.jsx` lines 55-59:
`if (score >= TARGET_SCORE && isGameActive) handleEndGame()`. -/
def checkTarget (s : GState) : GState :=
  if s.isGameActive = true ∧ TARGET_SCORE ≤ s.score then endGame s else s

/-- The localStorage effect of `useGameState.js` lines 27-30: write
`{ score, timeLeft }` under the key `fishMinerGameState`. Its dependency list
is exactly `[score, timeLeft]`, so it fires after every mutation of either. -/
def persistSnapshot (s : GState) : GState :=
  { s with storage := some (s.score, s.timeLeft) }

/-- The events of the simulation: each periodic timer callback, each one-shot
delayed callback, each reactive effect and each exposed request of the core. -/
inductive Ev where
  | start
  | spawn (id pick rx rp : Nat)
  | fall
  | sweep
  | countdown
  | dropRequest
  | resolve (t : Nat)
  | liftDone
  | feedbackClear
  | timeUpCheck
  | targetCheck
  | persist
deriving DecidableEq, Repr

/-- One step of the machine: dispatch an event to the corresponding source
operation. `gameDuration` is the argument of `useGameState(gameDuration)`. -/
def step (gameDuration : Nat) : Ev → GState → GState
  | .start => startGame gameDuration
  | .spawn id pick rx rp => spawnTick id pick rx rp
  | .fall => fallTick
  | .sweep => sweepTick
  | .countdown => countdownTick
  | .dropRequest => dropHook
  | .resolve t => resolveCatch t
  | .liftDone => liftEnd
  | .feedbackClear => clearCaught
  | .timeUpCheck => checkTimeUp
  | .targetCheck => checkTarget
  | .persist => persistSnapshot

/-- Run a list of events (the host's serialized event queue) from a state. -/
def run (gameDuration : Nat) (evs : List Ev) (s : GState) : GState :=
  evs.foldl (fun s e => step gameDuration e s) s

/-- The state reached from a fresh `useGameState 60` mount after a given
event sequence. -/
def reach (gameDuration : Nat) (evs : List Ev) : GState :=
  run gameDuration evs (initState gameDuration)

/-- Sixty fall ticks (three simulated seconds of falling). -/
def trFall60 : List Ev := List.replicate 60 Ev.fall

/-- Start a session, spawn one fish worth 50 points at `x = 250`, let it fall
to `y = 300` (inside the catch band around depth 350), then request a catch
with the hook at its initial position 250. -/
def trCatchSetup : List Ev :=
  [Ev.start, Ev.spawn 7 0 210 30] ++ trFall60 ++ [Ev.dropRequest]

/-- The spawned fish of `trCatchSetup` after falling to `y = 300`. -/
def objA : Obj := { id := 7, type := ItemType.fish, points := 50, x := 250, y := 300 }

/-- The state of `trCatchSetup`: a catch request pending whose captured
snapshot coincides with the live state. -/
def sCatchReady : GState := reach 60 trCatchSetup

/-- An active session holding one freshly spawned item. -/
def sSpawned : GState := reach 60 [Ev.start, Ev.spawn 7 0 210 30]

/-- An active session whose score is already past the target. -/
def sPastTarget : GState := { initState 60 with score := 600, isGameActive := true }

/-- A full countdown: the session runs until `timeLeft` reaches 0, with no
termination-check effect scheduled yet. -/
def trTimeUp : List Ev := Ev.start :: List.replicate 60 Ev.countdown

/-- Nine spawned fish worth 59 points each are caught one after the other,
driving the score to 531, past the target of 500; no termination-check
effect runs. -/
def trNineCatches : List Ev :=
  [Ev.start] ++ ((List.range 9).map (fun i => Ev.spawn (i + 1) 0 210 39)) ++
    List.replicate 60 Ev.fall ++
    (List.replicate 9 [Ev.dropRequest, Ev.resolve 1, Ev.liftDone]).flatten

/-- A pending catch request left to age: after the request of `trCatchSetup`,
thirty further fall ticks move the item to `y = 450`, outside the catch band,
before the delayed resolution fires. -/
def trAgedRequest : List Ev := trCatchSetup ++ List.replicate 30 Ev.fall

/-- A catch request whose owning session is restarted before the delayed
resolution fires: the stale callback then acts on the new session. -/
def trStaleRestart : List Ev := trCatchSetup ++ [Ev.start, Ev.resolve 77]

/-- A reachable mid-session state: the catch of `trCatchSetup` has resolved,
so the session is active with score 50 and a full clock. -/
def sMidSession : GState := reach 60 (trCatchSetup ++ [Ev.resolve 99])

/-- The hook invariant maintained by every operation of the core: the sweep
direction is `1` or `-1`, the position lies within
`[MIN_POSITION, MAX_POSITION]`, and at a bound the direction already points
back inward (clamp and flip happen in the same atomic transition). -/
def HookInv (s : GState) : Prop :=
  (s.hookDirection = 1 ∨ s.hookDirection = -1) ∧
  MIN_POSITION ≤ s.hookPosition ∧ s.hookPosition ≤ MAX_POSITION ∧
  (s.hookPosition = MAX_POSITION → s.hookDirection = -1) ∧
  (s.hookPosition = MIN_POSITION → s.hookDirection = 1)

/-! ## Helper lemmas -/

lemma resolveCatch_cons (t : Nat) (s : GState) (p : Pending) (rest : List Pending)
    (hp : s.pendingCatch = p :: rest) :
    resolveCatch t s = resolveBody p t { s with pendingCatch := rest } := by
  unfold resolveCatch
  rw [hp]

lemma resolveBody_found (p : Pending) (t : Nat) (s : GState) (c : Obj)
    (hf : p.objs.find? (qualifies p.hookX) = some c) :
    resolveBody p t s =
      { s with
        lastCaughtItem := some ⟨c, t⟩
        score := s.score + c.points
        removedSum := s.removedSum +
          ((s.gameObjects.filter (fun o => o.id == c.id)).map (fun o => o.points)).sum
        gameObjects := s.gameObjects.filter (fun o => o.id != c.id)
        catchAnimation := some Phase.lifting
        pendingLifts := s.pendingLifts + 1 } := by
  unfold resolveBody
  rw [hf]

lemma resolveBody_none (p : Pending) (t : Nat) (s : GState)
    (hf : p.objs.find? (qualifies p.hookX) = none) :
    resolveBody p t s = { s with catchAnimation := none } := by
  unfold resolveBody
  rw [hf]

lemma eq_of_id_eq_of_nodup {l : List Obj}
    (hnd : (l.map (fun o => o.id)).Nodup) {a b : Obj}
    (ha : a ∈ l) (hb : b ∈ l) (h : a.id = b.id) : a = b :=
  List.inj_on_of_nodup_map hnd ha hb h

lemma filter_id_eq_of_nodup (l : List Obj) (c : Obj) (hc : c ∈ l)
    (hnd : (l.map (fun o => o.id)).Nodup) :
    l.filter (fun o => o.id == c.id) = [c] := by
  induction l with
  | nil => cases hc
  | cons a l ih =>
    simp only [List.map_cons, List.nodup_cons, List.mem_map] at hnd
    rw [List.filter_cons]
    rcases List.mem_cons.mp hc with rfl | hc'
    · rw [if_pos (by simp)]
      have hnil : List.filter (fun o => o.id == c.id) l = [] := by
        rw [List.filter_eq_nil_iff]
        intro o ho hbeq
        exact hnd.1 ⟨o, ho, beq_iff_eq.mp hbeq⟩
      rw [hnil]
    · rw [if_neg (by
        intro hbeq
        exact hnd.1 ⟨c, hc', (beq_iff_eq.mp hbeq).symm⟩)]
      exact ih hc' hnd.2

/-! ## C7: catch requests while inactive or mid-animation are ignored -/

/-- C7: a catch request issued while the session is inactive or while the
catch-animation phase is not idle has no observable effect on the state
(item collection, score, hook, phase and snapshot unchanged). -/
theorem drop_request_ignored (d : Nat) (s : GState)
    (h : s.isGameActive = false ∨ s.catchAnimation ≠ none) :
    step d Ev.dropRequest s = s := by
  have hng : ¬(s.isGameActive = true ∧ s.catchAnimation = none) := by
    rcases h with h | h
    · intro hc
      rw [h] at hc
      exact Bool.false_ne_true hc.1
    · intro hc
      exact h hc.2
  show dropHook s = s
  unfold dropHook
  rw [if_neg hng]

/-- Witness for `drop_request_ignored` at the inactive initial state. -/
theorem drop_request_ignored_witness :
    step 60 Ev.dropRequest (initState 60) = initState 60 :=
  drop_request_ignored 60 (initState 60) (Or.inl rfl)

/-! ## C10: localStorage snapshotting -/

/-- C10: the localStorage effect (whose dependency list is exactly
`[score, timeLeft]`, so it fires after every mutation of either) writes a
snapshot holding exactly the current score and time remaining under the key
`fishMinerGameState`; a start request removes the stored snapshot as part of
the reset; and no other operation of the core touches the stored snapshot. -/
theorem storage_snapshot_spec (d : Nat) (s : GState) (e : Ev)
    (h1 : e ≠ Ev.persist) (h2 : e ≠ Ev.start) :
    (step d Ev.persist s).storage = some (s.score, s.timeLeft) ∧
    (step d Ev.start s).storage = none ∧
    (step d e s).storage = s.storage := by
  refine ⟨rfl, rfl, ?_⟩
  cases e with
  | start => exact absurd rfl h2
  | persist => exact absurd rfl h1
  | spawn id pick rx rp =>
      show (spawnTick id pick rx rp s).storage = s.storage
      unfold spawnTick
      split <;> rfl
  | fall =>
      show (fallTick s).storage = s.storage
      unfold fallTick
      split <;> rfl
  | sweep =>
      show (sweepTick s).storage = s.storage
      unfold sweepTick
      split
      · split
        · rfl
        · split <;> rfl
      · rfl
  | countdown =>
      show (countdownTick s).storage = s.storage
      unfold countdownTick
      split <;> rfl
  | dropRequest =>
      show (dropHook s).storage = s.storage
      unfold dropHook
      split <;> rfl
  | resolve t =>
      show (resolveCatch t s).storage = s.storage
      unfold resolveCatch
      split
      · rfl
      · unfold resolveBody
        split <;> rfl
  | liftDone =>
      show (liftEnd s).storage = s.storage
      unfold liftEnd
      split <;> rfl
  | feedbackClear =>
      show (clearCaught s).storage = s.storage
      unfold clearCaught
      split <;> rfl
  | timeUpCheck =>
      show (checkTimeUp s).storage = s.storage
      unfold checkTimeUp endGame
      split <;> rfl
  | targetCheck =>
      show (checkTarget s).storage = s.storage
      unfold checkTarget endGame
      split <;> rfl

/-- Witness for `storage_snapshot_spec` with a fall tick as the other event. -/
theorem storage_snapshot_spec_witness :
    (step 60 Ev.persist (initState 60)).storage = some (0, 60) ∧
    (step 60 Ev.start (initState 60)).storage = none ∧
    (step 60 Ev.fall (initState 60)).storage = (initState 60).storage := by
  have h := storage_snapshot_spec 60 (initState 60) Ev.fall (by decide) (by decide)
  exact ⟨h.1, h.2.1, h.2.2⟩

/-! ## C1: termination -/

/-- C1 (amended): the termination conditions are applied by reactive check
effects, not synchronously inside the mutating tick: the time-up check ends
the session whenever it observes `timeLeft = 0`, the target check ends it
whenever it observes an active session with `score ≥ TARGET_SCORE`, and once
the session is inactive no spawn, fall, sweep or countdown event mutates the
state. -/
theorem termination_checks_amended (d id pick rx rp : Nat) (s : GState) :
    (s.timeLeft = 0 → step d Ev.timeUpCheck s = { s with isGameActive := false }) ∧
    (s.isGameActive = true → TARGET_SCORE ≤ s.score →
      step d Ev.targetCheck s = { s with isGameActive := false }) ∧
    (s.isGameActive = false →
      step d (Ev.spawn id pick rx rp) s = s ∧ step d Ev.fall s = s ∧
      step d Ev.sweep s = s ∧ step d Ev.countdown s = s) := by
  refine ⟨fun h => ?_, fun h1 h2 => ?_, fun h => ⟨?_, ?_, ?_, ?_⟩⟩
  · show checkTimeUp s = _
    unfold checkTimeUp endGame
    rw [if_pos h]
  · show checkTarget s = _
    unfold checkTarget endGame
    rw [if_pos ⟨h1, h2⟩]
  · show spawnTick id pick rx rp s = s
    unfold spawnTick
    rw [if_neg (by simp [h])]
  · show fallTick s = s
    unfold fallTick
    rw [if_neg (by simp [h])]
  · show sweepTick s = s
    unfold sweepTick
    rw [if_neg (by simp [h])]
  · show countdownTick s = s
    unfold countdownTick
    rw [if_neg (by simp [h])]

set_option maxRecDepth 100000 in
/-- Witness for `termination_checks_amended`: the time-up check ends the
session of `trTimeUp`, the target check ends `sPastTarget`, and a fall tick
on the inactive initial state is the identity. -/
theorem termination_checks_amended_witness :
    step 60 Ev.timeUpCheck (reach 60 trTimeUp) =
      { reach 60 trTimeUp with isGameActive := false } ∧
    step 60 Ev.targetCheck sPastTarget = { sPastTarget with isGameActive := false } ∧
    step 60 Ev.fall (initState 60) = initState 60 :=
  ⟨(termination_checks_amended 60 0 0 0 0 (reach 60 trTimeUp)).1 (by decide),
   (termination_checks_amended 60 0 0 0 0 sPastTarget).2.1 (by decide) (by decide),
   ((termination_checks_amended 60 0 0 0 0 (initState 60)).2.2 (by decide)).2.1⟩

set_option maxRecDepth 100000 in
/-- C1 (counterexample to the claim as stated): the session does not
transition to ended within the tick in which the triggering value changes,
and further ticks are processed meanwhile. After a full countdown the state
has `timeLeft = 0` yet is still active and a subsequent sweep tick still
moves the hook; after nine catches the score 531 has crossed the target 500
yet the session is still active and a subsequent sweep tick still moves the
hook. -/
theorem termination_synchrony_cex :
    ((reach 60 trTimeUp).timeLeft = 0 ∧ (reach 60 trTimeUp).isGameActive = true ∧
      (step 60 Ev.sweep (reach 60 trTimeUp)).hookPosition ≠
        (reach 60 trTimeUp).hookPosition) ∧
    (TARGET_SCORE ≤ (reach 60 trNineCatches).score ∧
      (reach 60 trNineCatches).isGameActive = true ∧
      (step 60 Ev.sweep (reach 60 trNineCatches)).hookPosition ≠
        (reach 60 trNineCatches).hookPosition) := by
  decide

/-! ## C4: hook sweep bounds and direction flips -/

lemma sweepTick_spec (s : GState) (h : HookInv s) :
    HookInv (sweepTick s) ∧
    ((sweepTick s).hookDirection ≠ s.hookDirection ↔
      (s.hookDirection = 1 ∧ (sweepTick s).hookPosition = MAX_POSITION) ∨
      (s.hookDirection = -1 ∧ (sweepTick s).hookPosition = MIN_POSITION)) := by
  obtain ⟨hd, hmin, hmax, hM, hm⟩ := h
  have hmin' : (20 : Int) ≤ s.hookPosition := hmin
  have hmax' : s.hookPosition ≤ (460 : Int) := hmax
  by_cases hA : s.isGameActive = true
  · by_cases h1 : MAX_POSITION ≤ s.hookPosition + s.hookDirection * 3 ∧ 0 < s.hookDirection
    · have hs : sweepTick s = { s with hookPosition := MAX_POSITION, hookDirection := -1 } := by
        unfold sweepTick
        rw [if_pos hA, if_pos h1]
      rw [hs]
      have h1' : (460 : Int) ≤ s.hookPosition + s.hookDirection * 3 ∧ 0 < s.hookDirection := h1
      refine ⟨⟨Or.inr rfl, by show (20 : Int) ≤ 460; decide,
        by show (460 : Int) ≤ 460; decide, fun _ => rfl,
        fun hx => absurd hx (by show ¬(460 : Int) = 20; decide)⟩, ?_⟩
      rcases hd with hd | hd
      · simp [hd, MAX_POSITION, MIN_POSITION]
      · exfalso
        rw [hd] at h1'
        exact absurd h1'.2 (by decide)
    · by_cases h2 : s.hookPosition + s.hookDirection * 3 ≤ MIN_POSITION ∧ s.hookDirection < 0
      · have hs : sweepTick s = { s with hookPosition := MIN_POSITION, hookDirection := 1 } := by
          unfold sweepTick
          rw [if_pos hA, if_neg h1, if_pos h2]
        rw [hs]
        have h2' : s.hookPosition + s.hookDirection * 3 ≤ (20 : Int) ∧ s.hookDirection < 0 := h2
        refine ⟨⟨Or.inl rfl, by show (20 : Int) ≤ 20; decide,
          by show (20 : Int) ≤ 460; decide,
          fun hx => absurd hx (by show ¬(20 : Int) = 460; decide),
          fun _ => rfl⟩, ?_⟩
        rcases hd with hd | hd
        · exfalso
          rw [hd] at h2'
          exact absurd h2'.2 (by decide)
        · simp [hd, MAX_POSITION, MIN_POSITION]
      · have hs : sweepTick s =
            { s with hookPosition := s.hookPosition + s.hookDirection * 3 } := by
          unfold sweepTick
          rw [if_pos hA, if_neg h1, if_neg h2]
        rw [hs]
        have h1' : ¬((460 : Int) ≤ s.hookPosition + s.hookDirection * 3 ∧
            0 < s.hookDirection) := h1
        have h2' : ¬(s.hookPosition + s.hookDirection * 3 ≤ (20 : Int) ∧
            s.hookDirection < 0) := h2
        constructor
        · refine ⟨hd, ?_, ?_, ?_, ?_⟩
          · show (20 : Int) ≤ s.hookPosition + s.hookDirection * 3
            rcases hd with hd | hd <;> rw [hd] at h1' h2' ⊢ <;> omega
          · show s.hookPosition + s.hookDirection * 3 ≤ (460 : Int)
            rcases hd with hd | hd <;> rw [hd] at h1' h2' ⊢ <;> omega
          · show s.hookPosition + s.hookDirection * 3 = (460 : Int) → s.hookDirection = -1
            intro hx
            rcases hd with hd | hd
            · exfalso
              rw [hd] at h1' hx
              omega
            · exact hd
          · show s.hookPosition + s.hookDirection * 3 = (20 : Int) → s.hookDirection = 1
            intro hx
            rcases hd with hd | hd
            · exact hd
            · exfalso
              rw [hd] at h2' hx
              omega
        · show s.hookDirection ≠ s.hookDirection ↔
            (s.hookDirection = 1 ∧ s.hookPosition + s.hookDirection * 3 = MAX_POSITION) ∨
            (s.hookDirection = -1 ∧ s.hookPosition + s.hookDirection * 3 = MIN_POSITION)
          constructor
          · intro hne
            exact absurd rfl hne
          · rintro (⟨hd1, hx⟩ | ⟨hd1, hx⟩) <;> exfalso
            · rw [hd1] at h1' hx
              have hx' : s.hookPosition + 1 * 3 = (460 : Int) := hx
              omega
            · rw [hd1] at h2' hx
              have hx' : s.hookPosition + -1 * 3 = (20 : Int) := hx
              omega
  · have hs : sweepTick s = s := by
      unfold sweepTick
      rw [if_neg hA]
    rw [hs]
    refine ⟨⟨hd, hmin, hmax, hM, hm⟩, ?_⟩
    constructor
    · intro hne
      exact absurd rfl hne
    · rintro (⟨hd1, hx⟩ | ⟨hd1, hx⟩) <;> exfalso
      · have hc := hM hx
        rw [hd1] at hc
        exact absurd hc (by decide)
      · have hc := hm hx
        rw [hd1] at hc
        exact absurd hc (by decide)

lemma hookInv_step (d : Nat) (e : Ev) (s : GState) (h : HookInv s) :
    HookInv (step d e s) := by
  cases e with
  | start =>
      show HookInv (startGame d s)
      exact ⟨Or.inl rfl, by show (20 : Int) ≤ 250; decide,
        by show (250 : Int) ≤ 460; decide,
        fun hx => absurd hx (by show ¬(250 : Int) = 460; decide),
        fun hx => absurd hx (by show ¬(250 : Int) = 20; decide)⟩
  | sweep => exact (sweepTick_spec s h).1
  | spawn id pick rx rp =>
      show HookInv (spawnTick id pick rx rp s)
      unfold spawnTick
      split <;> exact h
  | fall =>
      show HookInv (fallTick s)
      unfold fallTick
      split <;> exact h
  | countdown =>
      show HookInv (countdownTick s)
      unfold countdownTick
      split <;> exact h
  | dropRequest =>
      show HookInv (dropHook s)
      unfold dropHook
      split <;> exact h
  | resolve t =>
      show HookInv (resolveCatch t s)
      unfold resolveCatch
      split
      · exact h
      · unfold resolveBody
        split <;> exact h
  | liftDone =>
      show HookInv (liftEnd s)
      unfold liftEnd
      split <;> exact h
  | feedbackClear =>
      show HookInv (clearCaught s)
      unfold clearCaught
      split <;> exact h
  | timeUpCheck =>
      show HookInv (checkTimeUp s)
      unfold checkTimeUp endGame
      split <;> exact h
  | targetCheck =>
      show HookInv (checkTarget s)
      unfold checkTarget endGame
      split <;> exact h
  | persist => exact h

lemma hookInv_run (d : Nat) (evs : List Ev) (s : GState) (h : HookInv s) :
    HookInv (run d evs s) := by
  induction evs generalizing s with
  | nil => exact h
  | cons e evs ih =>
      show HookInv (run d evs (step d e s))
      exact ih _ (hookInv_step d e s h)

lemma hookInv_reach (d : Nat) (evs : List Ev) : HookInv (reach d evs) :=
  hookInv_run d evs (initState d) ⟨Or.inl rfl, by show (20 : Int) ≤ 250; decide,
    by show (250 : Int) ≤ 460; decide,
    fun hx => absurd hx (by show ¬(250 : Int) = 460; decide),
    fun hx => absurd hx (by show ¬(250 : Int) = 20; decide)⟩

/-- C4: after a sweep tick on any reachable state of an active session, the
hook position lies within `[MIN_POSITION, MAX_POSITION]` (clamp, position
write and direction flip are one atomic transition, so no out-of-bounds
position is observable even transiently), and the sweep direction flips
exactly on the ticks where the position is clamped to the bound being
approached. -/
theorem hook_sweep_bounds_flip (d : Nat) (evs : List Ev)
    (hA : (reach d evs).isGameActive = true) :
    (MIN_POSITION ≤ (step d Ev.sweep (reach d evs)).hookPosition ∧
      (step d Ev.sweep (reach d evs)).hookPosition ≤ MAX_POSITION) ∧
    ((step d Ev.sweep (reach d evs)).hookDirection ≠ (reach d evs).hookDirection ↔
      ((reach d evs).hookDirection = 1 ∧
        (step d Ev.sweep (reach d evs)).hookPosition = MAX_POSITION) ∨
      ((reach d evs).hookDirection = -1 ∧
        (step d Ev.sweep (reach d evs)).hookPosition = MIN_POSITION)) := by
  have h := sweepTick_spec (reach d evs) (hookInv_reach d evs)
  exact ⟨⟨h.1.2.1, h.1.2.2.1⟩, h.2⟩

/-- Witness for `hook_sweep_bounds_flip` one sweep after a fresh start. -/
theorem hook_sweep_bounds_flip_witness :
    (reach 60 [Ev.start]).isGameActive = true ∧
    MIN_POSITION ≤ (step 60 Ev.sweep (reach 60 [Ev.start])).hookPosition ∧
    (step 60 Ev.sweep (reach 60 [Ev.start])).hookPosition ≤ MAX_POSITION :=
  ⟨rfl, (hook_sweep_bounds_flip 60 [Ev.start] rfl).1.1,
    (hook_sweep_bounds_flip 60 [Ev.start] rfl).1.2⟩

/-! ## C5: fall ticks -/

/-- C5: a fall tick on an active session is the single update-then-prune
`setGameObjects` transition: every surviving item is a fallen copy of a
previous item with its vertical position increased by exactly 5 and still
above the lower bound 480; every item whose updated position reaches 480 is
absent afterwards; and the tick changes no other observable field (score,
hook position and direction, animation phase, snapshot). -/
theorem fall_tick_spec (d : Nat) (s : GState) (h : s.isGameActive = true) :
    step d Ev.fall s =
      { s with gameObjects :=
          (s.gameObjects.map fallObj).filter (fun o => decide (o.y < 480)) } ∧
    (∀ o ∈ (step d Ev.fall s).gameObjects,
        o.y < 480 ∧ ∃ o0 ∈ s.gameObjects, o = fallObj o0 ∧ o.y = o0.y + 5) ∧
    (∀ o0 ∈ s.gameObjects, 480 ≤ o0.y + 5 →
        fallObj o0 ∉ (step d Ev.fall s).gameObjects) ∧
    (step d Ev.fall s).score = s.score ∧
    (step d Ev.fall s).hookPosition = s.hookPosition ∧
    (step d Ev.fall s).hookDirection = s.hookDirection ∧
    (step d Ev.fall s).catchAnimation = s.catchAnimation ∧
    (step d Ev.fall s).lastCaughtItem = s.lastCaughtItem := by
  have hs : step d Ev.fall s =
      { s with gameObjects :=
          (s.gameObjects.map fallObj).filter (fun o => decide (o.y < 480)) } := by
    show fallTick s = _
    unfold fallTick
    rw [if_pos h]
  refine ⟨hs, ?_, ?_, by rw [hs], by rw [hs], by rw [hs], by rw [hs], by rw [hs]⟩
  · intro o ho
    rw [hs] at ho
    simp only [List.mem_filter, List.mem_map, decide_eq_true_eq] at ho
    obtain ⟨⟨o0, ho0, rfl⟩, hy⟩ := ho
    exact ⟨hy, o0, ho0, rfl, rfl⟩
  · intro o0 h0 hge hin
    rw [hs] at hin
    simp only [List.mem_filter, decide_eq_true_eq] at hin
    have hy : (fallObj o0).y < 480 := hin.2
    have hy' : o0.y + 5 < 480 := hy
    omega

/-- Witness for `fall_tick_spec` on a freshly spawned item. -/
theorem fall_tick_spec_witness :
    (step 60 Ev.fall sSpawned).score = sSpawned.score ∧
    step 60 Ev.fall sSpawned =
      { sSpawned with gameObjects :=
          (sSpawned.gameObjects.map fallObj).filter (fun o => decide (o.y < 480)) } := by
  have h := fall_tick_spec 60 sSpawned (by decide)
  exact ⟨h.2.2.2.1, h.1⟩

/-! ## C3: catch resolution -/

/-- C3: a delayed catch resolution whose captured request-time snapshot
coincides with the live state (the claim's setting; ids are pairwise distinct
as produced by the spawner): if at least one live item qualifies, the first
qualifying item in stored insertion order is selected, removed from the live
collection (all other items survive), its point value added to the score
(possibly negative), a snapshot with the firing time recorded, and the phase
set to `lifting`; if none qualifies, the phase returns to idle immediately
and score, collection and snapshot are untouched. The last two conjuncts
state the time-boxing: the feedback-clearing effect always clears the
snapshot, and the inner delayed callback returns the phase to idle. -/
theorem catch_resolution_spec (d t : Nat) (s : GState) (rest : List Pending)
    (hp : s.pendingCatch = ⟨s.hookPosition, s.gameObjects⟩ :: rest)
    (hnd : (s.gameObjects.map (fun o => o.id)).Nodup) :
    (∀ c, s.gameObjects.find? (qualifies s.hookPosition) = some c →
        step d (Ev.resolve t) s =
          { s with
            score := s.score + c.points
            removedSum := s.removedSum + c.points
            gameObjects := s.gameObjects.filter (fun o => o.id != c.id)
            lastCaughtItem := some ⟨c, t⟩
            catchAnimation := some Phase.lifting
            pendingCatch := rest
            pendingLifts := s.pendingLifts + 1 } ∧
        qualifies s.hookPosition c = true ∧
        (∃ l1 l2, s.gameObjects = l1 ++ c :: l2 ∧
          ∀ o ∈ l1, qualifies s.hookPosition o = false) ∧
        c ∉ (step d (Ev.resolve t) s).gameObjects ∧
        (∀ o ∈ s.gameObjects, o ≠ c → o ∈ (step d (Ev.resolve t) s).gameObjects)) ∧
    (s.gameObjects.find? (qualifies s.hookPosition) = none →
        step d (Ev.resolve t) s =
          { s with catchAnimation := none, pendingCatch := rest }) ∧
    (∀ s' : GState, (clearCaught s').lastCaughtItem = none) ∧
    (∀ s' : GState, 0 < s'.pendingLifts → (liftEnd s').catchAnimation = none) := by
  have hstep : step d (Ev.resolve t) s =
      resolveBody ⟨s.hookPosition, s.gameObjects⟩ t { s with pendingCatch := rest } :=
    resolveCatch_cons t s _ rest hp
  refine ⟨?_, ?_, ?_, ?_⟩
  · intro c hfind
    have hc : c ∈ s.gameObjects := List.mem_of_find?_eq_some hfind
    have heq : step d (Ev.resolve t) s =
        { s with
          lastCaughtItem := some ⟨c, t⟩
          score := s.score + c.points
          removedSum := s.removedSum +
            ((s.gameObjects.filter (fun o => o.id == c.id)).map (fun o => o.points)).sum
          gameObjects := s.gameObjects.filter (fun o => o.id != c.id)
          catchAnimation := some Phase.lifting
          pendingLifts := s.pendingLifts + 1
          pendingCatch := rest } := by
      rw [hstep, resolveBody_found _ t _ c hfind]
    have hsum :
        ((s.gameObjects.filter (fun o => o.id == c.id)).map (fun o => o.points)).sum
          = c.points := by
      rw [filter_id_eq_of_nodup s.gameObjects c hc hnd]
      simp
    refine ⟨?_, List.find?_some hfind, ?_, ?_, ?_⟩
    · rw [heq, hsum]
    · obtain ⟨hq, as, bs, hsplit, hall⟩ := List.find?_eq_some.mp hfind
      refine ⟨as, bs, hsplit, fun o ho => ?_⟩
      have hno := hall o ho
      simpa using hno
    · rw [heq]
      intro hmem
      simp only [List.mem_filter] at hmem
      exact (bne_iff_ne.mp hmem.2) rfl
    · intro o ho hne
      rw [heq]
      simp only [List.mem_filter]
      refine ⟨ho, bne_iff_ne.mpr fun hid => ?_⟩
      exact hne (eq_of_id_eq_of_nodup hnd ho hc hid)
  · intro hfind
    rw [hstep, resolveBody_none _ t _ hfind]
  · intro s'
    unfold clearCaught
    split
    · rfl
    · assumption
  · intro s' h'
    unfold liftEnd
    rw [if_pos h']

set_option maxRecDepth 100000 in
/-- Witness for `catch_resolution_spec` at the concrete pending catch of
`trCatchSetup`: the fish worth 50 points is caught and snapshotted. -/
theorem catch_resolution_spec_witness :
    (step 60 (Ev.resolve 5) sCatchReady).score = sCatchReady.score + 50 ∧
    (step 60 (Ev.resolve 5) sCatchReady).lastCaughtItem = some ⟨objA, 5⟩ := by
  have h := (catch_resolution_spec 60 5 sCatchReady [] (by decide) (by decide)).1
    objA (by decide)
  constructor
  · rw [h.1]
    decide
  · rw [h.1]

/-! ## C9: which state the delayed evaluation reads -/

/-- C9 (amended): the delayed catch evaluation compares item positions
against the hook position and item collection captured by the callback's
closure at the moment the request was issued (the head of `pendingCatch`),
not against the live state at evaluation time: the outcome is determined by
the captured snapshot `p`. -/
theorem catch_eval_uses_request_snapshot (d t : Nat) (s : GState) (p : Pending)
    (rest : List Pending) (hp : s.pendingCatch = p :: rest) :
    (∀ c, p.objs.find? (qualifies p.hookX) = some c →
        (step d (Ev.resolve t) s).score = s.score + c.points ∧
        (step d (Ev.resolve t) s).lastCaughtItem = some ⟨c, t⟩ ∧
        (step d (Ev.resolve t) s).gameObjects =
          s.gameObjects.filter (fun o => o.id != c.id) ∧
        (step d (Ev.resolve t) s).catchAnimation = some Phase.lifting) ∧
    (p.objs.find? (qualifies p.hookX) = none →
        step d (Ev.resolve t) s =
          { s with catchAnimation := none, pendingCatch := rest }) := by
  have hstep : step d (Ev.resolve t) s =
      resolveBody p t { s with pendingCatch := rest } :=
    resolveCatch_cons t s p rest hp
  constructor
  · intro c hfind
    rw [hstep, resolveBody_found p t _ c hfind]
    exact ⟨rfl, rfl, rfl, rfl⟩
  · intro hfind
    rw [hstep, resolveBody_none p t _ hfind]

set_option maxRecDepth 100000 in
/-- Witness for `catch_eval_uses_request_snapshot` at the pending catch of
`trCatchSetup`. -/
theorem catch_eval_uses_request_snapshot_witness :
    (step 60 (Ev.resolve 9) sCatchReady).lastCaughtItem = some ⟨objA, 9⟩ ∧
    (step 60 (Ev.resolve 9) sCatchReady).catchAnimation = some Phase.lifting := by
  have h := (catch_eval_uses_request_snapshot 60 9 sCatchReady
    ⟨sCatchReady.hookPosition, sCatchReady.gameObjects⟩ [] (by decide)).1 objA (by decide)
  exact ⟨h.2.1, h.2.2.2⟩

set_option maxRecDepth 100000 in
/-- C9 (counterexample to the claim as stated): after `trAgedRequest` the only
live item has fallen to `y = 450`, so at evaluation time no live item
qualifies against the hook's current position; yet the delayed resolution
still catches the item as captured at request time, adding its 50 points and
snapshotting the stale item. -/
theorem catch_eval_time_cex :
    (reach 60 trAgedRequest).gameObjects.find?
        (qualifies (reach 60 trAgedRequest).hookPosition) = none ∧
    (step 60 (Ev.resolve 5) (reach 60 trAgedRequest)).score =
      (reach 60 trAgedRequest).score + 50 ∧
    (step 60 (Ev.resolve 5) (reach 60 trAgedRequest)).lastCaughtItem =
      some ⟨objA, 5⟩ := by
  decide

/-! ## C2 and C6: the stale-callback defect -/

set_option maxRecDepth 100000 in
/-- C2 (failing-input evaluation): along `trStaleRestart` a catch request's
delayed resolution fires after its session has been restarted; the final
score is 50 although the sum of the point values of the items removed from
the live collection by catch resolutions since the last start (the ghost
`removedSum`) is 0: the score is not the sum of the removed items' points. -/
theorem score_accounting_bug_eval :
    (reach 60 trStaleRestart).score = 50 ∧
    (reach 60 trStaleRestart).removedSum = 0 ∧
    (reach 60 trStaleRestart).score ≠ (reach 60 trStaleRestart).removedSum := by
  decide

set_option maxRecDepth 100000 in
/-- C6 (failing-input evaluation): the delayed resolution left pending at the
restart of `trStaleRestart` fires on the new session and corrupts it:
immediately after the restart the score is 0, the phase idle and the snapshot
absent, but the stale callback then sets score 50, phase `lifting` and a
snapshot of the old session's item. -/
theorem stale_callback_bug_eval :
    (reach 60 (trCatchSetup ++ [Ev.start])).score = 0 ∧
    (reach 60 (trCatchSetup ++ [Ev.start])).catchAnimation = none ∧
    (reach 60 (trCatchSetup ++ [Ev.start])).lastCaughtItem = none ∧
    (reach 60 trStaleRestart).score = 50 ∧
    (reach 60 trStaleRestart).catchAnimation = some Phase.lifting ∧
    (reach 60 trStaleRestart).lastCaughtItem = some ⟨objA, 77⟩ := by
  decide

/-! ## C8: start while active -/

set_option maxRecDepth 100000 in
/-- C8 (failing-input evaluation): `startGame` invoked on a reachable active
session with score 50 is not a no-op: it resets the score to 0 and the clock
to the full duration, clears the item collection, and leaves the session
active (a restart, not an ignored request). -/
theorem start_while_active_bug_eval :
    sMidSession.isGameActive = true ∧ sMidSession.score = 50 ∧
    (step 60 Ev.start sMidSession).score = 0 ∧
    (step 60 Ev.start sMidSession).timeLeft = 60 ∧
    step 60 Ev.start sMidSession ≠ sMidSession := by
  decide

end FishMiner
